import Mathlib

/-!
# Verification of the p2p escrow client's arithmetic and state-derivation core

Shallow embedding of the amount-conversion, fill-bound, status-derivation,
validation, cost-estimation and formatting logic of the repository.

Conventions used throughout:
* JavaScript decimal strings matching `/^[0-9]*(\.[0-9]*)?$/` are represented
  as lists of digits (most significant first): an integer part and a
  fractional part.  `BigInt` values are `ℕ` (the claims only involve
  non-negative amounts), JS numbers are modelled as exact rationals `ℚ`.
* `String.prototype.slice` with negative-zero end index (`slice(0, -0)`)
  evaluates in JS as `slice(0, 0)`; the embedding reproduces this.
-/

/-- `BigInt(s)` on a string of decimal digits (most significant first).
`BigInt("")` is `0` in JS, matching `digitsToNat [] = 0`. -/
def digitsToNat (l : List ℕ) : ℕ :=
  l.foldl (fun acc d => acc * 10 + d) 0

/-- Decimal digits of `n`, least significant first, with explicit fuel so the
kernel can evaluate it; `natDigitsRev fuel n = []` for `n = 0`. -/
def natDigitsRev (fuel n : ℕ) : List ℕ :=
  match fuel with
  | 0 => []
  | f + 1 => if n = 0 then [] else n % 10 :: natDigitsRev f (n / 10)

/-- Decimal digits of `n`, most significant first; `[]` for `0`
(the string form of `n` is `"0"` exactly when this list is empty). -/
def natDigitsMSD (n : ℕ) : List ℕ :=
  (natDigitsRev n n).reverse

/-- `String.prototype.padStart`-style left zero padding to length `d`. -/
def padLeftZeros (l : List ℕ) (d : ℕ) : List ℕ :=
  List.replicate (d - l.length) 0 ++ l

/-- Embedding of `toSmallestUnits(amount, decimals)` from
`src/src/utils/walletDetection.js` (formatters), lines 344-357.
The string `amount` is represented by its integer-part digits and
fractional-part digits.  The JS source:
`if (!amount || amount === '0' || amount === 0) return BigInt(0)`;
then splits on `.`, sets
`paddedDecimal = decimalPart.padEnd(decimals, '0').slice(0, decimals)`,
and returns `BigInt(integerPart + paddedDecimal)`. -/
def toSmallestUnits (intDigits fracDigits : List ℕ) (decimals : ℕ) : ℕ :=
  -- the guard `!amount || amount === '0'` covers the inputs "" and "0"
  if (intDigits = [] ∨ intDigits = [0]) ∧ fracDigits = [] then 0
  else
    let paddedDecimal :=
      ((fracDigits ++ List.replicate (decimals - fracDigits.length) 0).take decimals)
    digitsToNat (intDigits ++ paddedDecimal)

/-- Embedding of `fromSmallestUnits(amount, decimals)` from
`src/src/utils/walletDetection.js` (formatters), lines 365-385.
The JS source: `if (!amount || amount === '0' || amount === 0) return 0`;
`padded = amountStr.padStart(decimals + 1, '0')`;
`integerPart = padded.slice(0, -decimals) || '0'`;
`decimalPart = padded.slice(-decimals)`;
`parseFloat(integerPart + '.' + decimalPart)`.
For `decimals = 0`, JS evaluates `padded.slice(0, -0)` as `padded.slice(0, 0) = ""`
(so `integerPart` falls back to `'0'`) and `padded.slice(-0)` as the whole
string; the embedding reproduces exactly this. -/
def fromSmallestUnits (amount : ℕ) (decimals : ℕ) : ℚ :=
  if amount = 0 then 0
  else
    let amountStr := natDigitsMSD amount
    let padded := padLeftZeros amountStr (decimals + 1)
    let integerPart :=
      if decimals = 0 then ([] : List ℕ) else padded.take (padded.length - decimals)
    let integerPart := if integerPart = [] then [0] else integerPart
    let decimalPart := if decimals = 0 then padded else padded.drop (padded.length - decimals)
    -- parseFloat(`${integerPart}.${decimalPart}`), assembled as one exact fraction
    mkRat (digitsToNat integerPart * 10 ^ decimalPart.length + digitsToNat decimalPart)
      (10 ^ decimalPart.length)

example : fromSmallestUnits 150 2 = mkRat 3 2 := by decide
example : fromSmallestUnits 5 2 = mkRat 1 20 := by decide
example : fromSmallestUnits 5 0 = mkRat 1 2 := by decide
example : toSmallestUnits [1] [5] 2 = 150 := by decide
example : toSmallestUnits [0] [0,5] 2 = 5 := by decide
example : toSmallestUnits [5] [] 0 = 5 := by decide

/-- `Math.abs` on a JS number. -/
def jsAbs (q : ℚ) : ℚ :=
  if q < 0 then -q else q

/-- Smallest `k` with `den ∣ 10 ^ k` (the number of fractional digits of the
shortest decimal form of a rational with denominator `den`); searches up to
`den`, which suffices for any denominator dividing a power of ten. -/
def pow10Exp (den : ℕ) : ℕ :=
  (List.range (den + 1)).findIdx (fun k => den ∣ 10 ^ k)

/-- JS `Number.prototype.toString` on a non-negative number whose exact value
is a decimal fraction: the shortest decimal representation, returned as
integer-part digits and fractional-part digits (no trailing zeros; the
fractional list is empty exactly when the rendered string has no `.`). -/
def jsNumToString (q : ℚ) : List ℕ × List ℕ :=
  let k := pow10Exp q.den
  let n := q.num.natAbs * 10 ^ k / q.den
  let ip := n / 10 ^ k
  let fp := n % 10 ^ k
  ((if ip = 0 then [0] else natDigitsMSD ip),
   if k = 0 then [] else padLeftZeros (natDigitsMSD fp) k)

example : jsNumToString (mkRat 1 2) = ([0], [5]) := by decide
example : jsNumToString (mkRat 3 2) = ([1], [5]) := by decide
example : jsNumToString 25 = ([2, 5], []) := by decide

/-- Embedding of the `depositAmountToExchange` computation of `exchangeEscrow`
in `src/src/views/EscrowDetail.vue`, lines 680-708.  The JS source:
`tolerance = 0.0001`;
`isFullFill = fillAmountPercent >= 99.99 || Math.abs(currentFillAmount - maxFillAmount) < tolerance || (maxFillAmount > 0 && currentFillAmount >= maxFillAmount * (1 - tolerance))`;
full fill uses `escrow.depositRemaining` (the display value built by
`fromSmallestUnits`, not the raw `depositRemainingRaw`), partial fill uses
`currentFillAmount / price`; without partial fill, `depositRemaining`. -/
def depositAmountToExchange (allowPartialFill : Bool)
    (fillAmountPercent currentFillAmount maxFill depositRemaining price : ℚ) : ℚ :=
  if allowPartialFill then
    let tolerance : ℚ := mkRat 1 10000
    let isFullFill : Prop :=
      fillAmountPercent ≥ mkRat 9999 100 ∨
        jsAbs (currentFillAmount - maxFill) < tolerance ∨
        (maxFill > 0 ∧ currentFillAmount ≥ maxFill * (1 - tolerance))
    if isFullFill then depositRemaining else currentFillAmount / price
  else depositRemaining

/-- The smallest-units deposit amount submitted by `exchangeEscrow`
(`src/src/views/EscrowDetail.vue`): the snapshot's display-scale
`depositRemaining` is `fromSmallestUnits` of the raw on-chain value
(`loadEscrow`), `depositAmountToExchange` picks the amount, and the result is
`toSmallestUnits(depositAmountToExchange.toString(), depositToken.decimals)`. -/
def exchangeDepositAmountRaw (allowPartialFill : Bool)
    (fillAmountPercent currentFillAmount maxFill : ℚ)
    (tokensDepositRemaining depositDecimals : ℕ) (price : ℚ) : ℕ :=
  let depositRemaining := fromSmallestUnits tokensDepositRemaining depositDecimals
  let amt := depositAmountToExchange allowPartialFill
    fillAmountPercent currentFillAmount maxFill depositRemaining price
  let s := jsNumToString amt
  toSmallestUnits s.1 s.2 depositDecimals

/-- Escrow status as the client derives it. -/
inductive EscrowStatus where
  | filled
  | expired
  | active
deriving DecidableEq

/-- Embedding of the status derivation shared by `loadEscrows`
(`src/unnamed/part_003`, lines 332-336) and `loadEscrow`
(`src/src/views/EscrowDetail.vue`, lines 525-528):
`isFilled = tokensDepositRemaining.toString() === '0'`;
`isExpired = expireTimestamp > 0 && expireTimestamp < Math.floor(Date.now() / 1000)`;
`status = isFilled ? 'filled' : (isExpired ? 'expired' : 'active')`. -/
def deriveStatus (tokensDepositRemaining : ℕ) (expireTimestamp now : ℤ) : EscrowStatus :=
  if tokensDepositRemaining = 0 then EscrowStatus.filled
  else if expireTimestamp > 0 ∧ expireTimestamp < now then EscrowStatus.expired
  else EscrowStatus.active

/-- The fields of the in-memory escrow record (`escrow.value` in
`src/src/views/EscrowDetail.vue`) that the fill calculator and the
fill-eligibility check read. -/
structure EscrowRecord where
  maker : String
  status : EscrowStatus
  recipient : Option String
  onlyRecipient : Bool
  allowPartialFill : Bool
  depositRemaining : ℚ
  price : ℚ
  requestAmount : ℚ
deriving DecidableEq

/-- The system program / null address every recipient comparison uses. -/
def NULL_ADDRESS : String := "11111111111111111111111111111111"

/-- Embedding of the `canExchange` computed property
(`src/src/views/EscrowDetail.vue`, lines 179-210). -/
def canExchange (escrow : Option EscrowRecord) (connected : Bool)
    (publicKey : Option String) : Bool :=
  match escrow, publicKey with
  | none, _ => false
  | _, none => false
  | some e, some pk =>
    if !connected then false
    else if e.maker == pk then false
    else if e.status ≠ EscrowStatus.active then false
    else
      let isPublic := e.recipient.isNone || e.recipient == some NULL_ADDRESS
      match e.recipient with
      | some r => if e.onlyRecipient then r == pk else if !isPublic then true else true
      | none => true

/-- Embedding of the `maxFillAmount` computed property
(`src/src/views/EscrowDetail.vue`, lines 217-225):
`if (!escrow.value) return 0`;
`Math.min(escrow.depositRemaining * escrow.price, requestTokenBalance)`. -/
def maxFillAmount (escrow : Option EscrowRecord) (requestTokenBalance : ℚ) : ℚ :=
  match escrow with
  | none => 0
  | some e => min (e.depositRemaining * e.price) requestTokenBalance

/-- A JS decimal string matching `/^[0-9]*(\.[0-9]*)?$/`, kept as integer-part
digits, whether the text contains a decimal point, and fractional-part digits
(empty when there is no point). -/
structure DecStr where
  intDigits : List ℕ
  hasDot : Bool
  fracDigits : List ℕ
deriving DecidableEq

/-- `parseFloat` on such a string: `NaN` (here `none`) for the empty string
`""` and for `"."`; otherwise the exact decimal value. -/
def parseFloatOf (s : DecStr) : Option ℚ :=
  if s.intDigits = [] ∧ s.fracDigits = [] then none
  else some (mkRat (digitsToNat s.intDigits * 10 ^ s.fracDigits.length
    + digitsToNat s.fracDigits) (10 ^ s.fracDigits.length))

/-- Embedding of the `isValidOfferAmount` computed property
(`src/unnamed/part_003`, lines 80-102), with the token present and its
`decimals` given.  The JS source: `amount = parseFloat(offerAmount)`;
`if (isNaN(amount) || amount <= 0) return false`; for `decimals === 0`:
`if (!Number.isInteger(amount)) return false` and then, if the textual form
contains `'.'` with a non-empty decimal part holding any non-`'0'` digit,
`return false`; otherwise `return true`. -/
def isValidOfferAmount (decimals : ℕ) (offerAmount : DecStr) : Bool :=
  match parseFloatOf offerAmount with
  | none => false
  | some amount =>
    if amount ≤ 0 then false
    else if decimals = 0 then
      if amount.den ≠ 1 then false
      else if offerAmount.hasDot ∧ offerAmount.fracDigits ≠ [] ∧
          offerAmount.fracDigits.any (fun d => d ≠ 0) then false
      else true
    else true

example : isValidOfferAmount 0 ⟨[2], true, [5]⟩ = false := by decide
example : isValidOfferAmount 0 ⟨[3], false, []⟩ = true := by decide
example : isValidOfferAmount 0 ⟨[3], true, [0]⟩ = true := by decide
example : isValidOfferAmount 2 ⟨[2], true, [5]⟩ = true := by decide

/-- The fixed protocol constants of `src/src/utils/constants/fees`
(`TRANSACTION_COSTS`).  The constants file itself is not part of the sources
here; the estimators are stated for arbitrary constant values, which covers
the actual ones. -/
structure FeeConstants where
  ESCROW_RENT : ℚ
  CONTRACT_FEE : ℚ
  PLATFORM_FEE : ℚ
  ATA_CREATION : ℚ
  TRANSACTION_FEE : ℚ

/-- Result shape of `calculateEscrowCreationCosts`. -/
structure CreationCosts where
  escrowRent : ℚ
  contractFee : ℚ
  platformFee : ℚ
  depositAtaCost : ℚ
  requestAtaCost : ℚ
  depositAtaExists : Bool
  requestAtaExists : Bool
  totalCost : ℚ
  recoverable : ℚ
  nonRecoverable : ℚ

/-- Embedding of `calculateEscrowCreationCosts`
(`src/src/utils/transactionCosts.js`, lines 20-57), with the two
ATA-existence lookups already resolved to booleans. -/
def calculateEscrowCreationCosts (fees : FeeConstants)
    (depositAtaExists requestAtaExists : Bool) : CreationCosts :=
  let escrowRent := fees.ESCROW_RENT
  let contractFee := fees.CONTRACT_FEE
  let platformFee := fees.PLATFORM_FEE
  let depositAtaCost := if depositAtaExists then 0 else fees.ATA_CREATION
  let requestAtaCost := if requestAtaExists then 0 else fees.ATA_CREATION
  { escrowRent := escrowRent
    contractFee := contractFee
    platformFee := platformFee
    depositAtaCost := depositAtaCost
    requestAtaCost := requestAtaCost
    depositAtaExists := depositAtaExists
    requestAtaExists := requestAtaExists
    totalCost := escrowRent + contractFee + platformFee + depositAtaCost + requestAtaCost
    recoverable := escrowRent + depositAtaCost + requestAtaCost
    nonRecoverable := contractFee + platformFee }

/-- One display line of a cost breakdown. -/
structure CostItem where
  label : String
  amount : ℚ
  recoverable : Bool

/-- Result shape of `formatCostBreakdown`. -/
structure FormattedBreakdown where
  items : List CostItem
  total : ℚ
  recoverable : ℚ
  nonRecoverable : ℚ

/-- Embedding of `formatCostBreakdown`
(`src/src/utils/transactionCosts.js`, lines 64-98). -/
def formatCostBreakdown (costs : CreationCosts) : FormattedBreakdown :=
  let totalTokenAccountCost := costs.depositAtaCost + costs.requestAtaCost
  let tokenItems : List CostItem :=
    if totalTokenAccountCost > 0 then
      [{ label := "Token accounts", amount := totalTokenAccountCost, recoverable := true }]
    else []
  let items := tokenItems ++
    [{ label := "Escrow accounts", amount := costs.escrowRent, recoverable := true },
     { label := "Escrow fee", amount := costs.contractFee + costs.platformFee,
       recoverable := false }]
  { items := items
    total := costs.totalCost
    recoverable := costs.recoverable
    nonRecoverable := costs.nonRecoverable }

/-- Sum of the amounts of the rent-bearing (recoverable) line items. -/
def sumRecoverableItems (items : List CostItem) : ℚ :=
  (items.filter (fun i => i.recoverable)).foldl (fun acc i => acc + i.amount) 0

/-- Result shape of `calculateExchangeCosts`. -/
structure ExchangeCosts where
  transactionFee : ℚ
  contractFee : ℚ
  takerAtaCost : ℚ
  takerReceiveAtaCost : ℚ
  takerAtaExists : Bool
  takerReceiveAtaExists : Bool
  totalCost : ℚ
  recoverable : ℚ
  nonRecoverable : ℚ

/-- Embedding of `calculateExchangeCosts`
(`src/src/utils/transactionCosts.js`, lines 109-146): the taker's missing
request-token and deposit-receive ATAs cost `ATA_CREATION` each;
`totalCost = transactionFee + takerAtaCost + takerReceiveAtaCost`;
`contractFee` is carried in the result for information only. -/
def calculateExchangeCosts (fees : FeeConstants)
    (takerAtaExists takerReceiveAtaExists : Bool) : ExchangeCosts :=
  let transactionFee := fees.TRANSACTION_FEE
  let contractFee := fees.CONTRACT_FEE
  let takerAtaCost := if takerAtaExists then 0 else fees.ATA_CREATION
  let takerReceiveAtaCost := if takerReceiveAtaExists then 0 else fees.ATA_CREATION
  { transactionFee := transactionFee
    contractFee := contractFee
    takerAtaCost := takerAtaCost
    takerReceiveAtaCost := takerReceiveAtaCost
    takerAtaExists := takerAtaExists
    takerReceiveAtaExists := takerReceiveAtaExists
    totalCost := transactionFee + takerAtaCost + takerReceiveAtaCost
    recoverable := takerAtaCost + takerReceiveAtaCost
    nonRecoverable := transactionFee }

/-- JS `toFixed(d)` on a non-negative number: round half away from zero to
`d` fractional digits, returned as integer-part value and exactly `d`
fractional digits (empty when `d = 0`, in which case the rendered string has
no decimal point). -/
def toFixed (q : ℚ) (d : ℕ) : ℕ × List ℕ :=
  let scaled := (⌊q * (10 ^ d : ℕ) + mkRat 1 2⌋).toNat
  (scaled / 10 ^ d,
   if d = 0 then [] else padLeftZeros (natDigitsMSD (scaled % 10 ^ d)) d)

/-- Render a (integer part, fractional digits) pair the way JS renders the
result of `toFixed`: no decimal point when there are no fractional digits. -/
def renderDec (p : ℕ × List ℕ) : String :=
  toString p.1 ++ (if p.2 = [] then "" else "." ++ String.join (p.2.map (fun d => toString d)))

/-- Embedding of `formatDecimals(value)` from `src/src/utils/walletDetection.js`
(formatters), lines 188-234: `0` maps to `"0"`; the fractional-digit count is
chosen from `Math.abs(value)` (`<1` gives 6, `<10` gives 4, `<100` gives 2,
`<1000` gives 1, otherwise 0); after `toFixed`, if the string has a decimal
part consisting only of `'0'` digits it is reformatted with `toFixed(1)`; the
sign is prepended to the formatted absolute value. -/
def formatDecimals (value : ℚ) : String :=
  if value = 0 then "0"
  else
    let absValue := jsAbs value
    let sign := if value < 0 then "-" else ""
    let decimals : ℕ :=
      if absValue < 1 then 6
      else if absValue < 10 then 4
      else if absValue < 100 then 2
      else if absValue < 1000 then 1
      else 0
    let formatted := toFixed absValue decimals
    let formatted :=
      if decimals > 0 ∧ formatted.2 ≠ [] ∧ formatted.2.all (fun d => d = 0) then
        toFixed absValue 1
      else formatted
    sign ++ renderDec formatted

/-- The magnitude bands exactly as the specification words them:
`<1` gives 6 fractional digits, `[1,10)` gives 4, `[10,100)` gives 2,
`[100,1000)` gives 1, `≥1000` gives 0. -/
def bandDigits (a : ℚ) : ℕ :=
  if a < 1 then 6
  else if a < 10 then 4
  else if a < 100 then 2
  else if a < 1000 then 1
  else 0

/-- The formatter as the specification describes it (for comparison with the
source embedding `formatDecimals`): format `0` as `"0"`; otherwise format the
absolute value at the band's precision, reformat at exactly 1 fractional digit
when every fractional digit of the result is `0`, and apply the preserved
sign. -/
def formatDecimalsSpec (value : ℚ) : String :=
  if value = 0 then "0"
  else
    let a := jsAbs value
    let f := toFixed a (bandDigits a)
    let f := if f.2 ≠ [] ∧ f.2.all (fun d => d = 0) then toFixed a 1 else f
    (if value < 0 then "-" else "") ++ renderDec f

lemma digitsToNat_foldl (l : List ℕ) (acc : ℕ) :
    l.foldl (fun a d => a * 10 + d) acc = acc * 10 ^ l.length + digitsToNat l := by
  induction l generalizing acc with
  | nil => simp [digitsToNat]
  | cons d l ih =>
    simp only [List.foldl_cons, List.length_cons, digitsToNat]
    rw [ih (acc * 10 + d), ih (0 * 10 + d)]
    ring

lemma digitsToNat_append (a b : List ℕ) :
    digitsToNat (a ++ b) = digitsToNat a * 10 ^ b.length + digitsToNat b := by
  unfold digitsToNat
  rw [List.foldl_append]
  exact digitsToNat_foldl b _

lemma digitsToNat_replicate_zero (n : ℕ) : digitsToNat (List.replicate n 0) = 0 := by
  induction n with
  | zero => rfl
  | succ n ih =>
    show digitsToNat (0 :: List.replicate n 0) = 0
    unfold digitsToNat at ih ⊢
    simpa using ih

/-- C3: for every raw escrow account and current time `now`, the derived
status is `filled` iff `tokensDepositRemaining = 0`; otherwise `expired` iff
`expireTimestamp > 0` and `expireTimestamp < now`; otherwise `active`. -/
theorem deriveStatus_characterization : ∀ (r : ℕ) (e now : ℤ),
    (deriveStatus r e now = EscrowStatus.filled ↔ r = 0) ∧
    (r ≠ 0 → (deriveStatus r e now = EscrowStatus.expired ↔ 0 < e ∧ e < now)) ∧
    (r ≠ 0 → ¬(0 < e ∧ e < now) → deriveStatus r e now = EscrowStatus.active) := by
  intro r e now
  unfold deriveStatus
  split_ifs with h1 h2 <;> simp_all

/-- Witness for C3 at a concrete input: non-zero remaining, expiry in the
past, so the status is `expired`. -/
theorem deriveStatus_characterization_witness :
    deriveStatus 7 10 20 = EscrowStatus.expired :=
  ((deriveStatus_characterization 7 10 20).2.1 (by decide)).mpr (by decide)

/-- C4: `maxFillAmount` equals `min(depositRemaining * price,
counterpartyBalance)`, hence is bounded by both, and is non-increasing when
the balance or (for non-negative price) the remaining deposit decreases. -/
theorem maxFillAmount_bounds_and_monotone : ∀ (e : EscrowRecord) (bal bal' dr' : ℚ),
    maxFillAmount (some e) bal = min (e.depositRemaining * e.price) bal ∧
    maxFillAmount (some e) bal ≤ e.depositRemaining * e.price ∧
    maxFillAmount (some e) bal ≤ bal ∧
    (bal' ≤ bal → maxFillAmount (some e) bal' ≤ maxFillAmount (some e) bal) ∧
    (0 ≤ e.price → dr' ≤ e.depositRemaining →
      maxFillAmount (some { e with depositRemaining := dr' }) bal ≤ maxFillAmount (some e) bal) := by
  intro e bal bal' dr'
  refine ⟨rfl, min_le_left _ _, min_le_right _ _, fun h => min_le_min le_rfl h, fun hp hd => ?_⟩
  exact min_le_min (mul_le_mul_of_nonneg_right hd hp) le_rfl

/-- Witness for C4 at concrete inputs: the balance bound, and monotonicity
under a decrease of the remaining deposit. -/
theorem maxFillAmount_bounds_and_monotone_witness :
    maxFillAmount (some ⟨"m", EscrowStatus.active, none, false, true, 2, 3, 6⟩) 4 ≤ 4 ∧
    maxFillAmount (some ⟨"m", EscrowStatus.active, none, false, true, 1, 3, 6⟩) 5 ≤
      maxFillAmount (some ⟨"m", EscrowStatus.active, none, false, true, 2, 3, 6⟩) 5 := by
  constructor
  · exact (maxFillAmount_bounds_and_monotone ⟨"m", EscrowStatus.active, none, false, true, 2, 3, 6⟩ 4 4 2).2.2.1
  · exact (maxFillAmount_bounds_and_monotone ⟨"m", EscrowStatus.active, none, false, true, 2, 3, 6⟩ 5 5 1).2.2.2.2 (by decide) (by decide)

/-- C5: `toSmallestUnits` truncates rather than rounds —
`toSmallestUnits("1.999999999", 2) = toSmallestUnits("1.99", 2)` — and for
every input the fractional digits are right-padded with zeros or truncated to
exactly `decimals` digits and concatenated onto the integer digits before
being parsed as an integer. -/
theorem toSmallestUnits_truncates : ∀ (intDigits fracDigits : List ℕ) (d : ℕ),
    toSmallestUnits [1] [9, 9, 9, 9, 9, 9, 9, 9, 9] 2 = toSmallestUnits [1] [9, 9] 2 ∧
    toSmallestUnits intDigits fracDigits d
      = digitsToNat intDigits * 10 ^ d
        + digitsToNat ((fracDigits ++ List.replicate (d - fracDigits.length) 0).take d) := by
  intro intDigits fracDigits d
  refine ⟨by decide, ?_⟩
  unfold toSmallestUnits
  have hlen : ((fracDigits ++ List.replicate (d - fracDigits.length) 0).take d).length = d := by
    simp [List.length_take, List.length_append, List.length_replicate]
    omega
  split_ifs with h
  · obtain ⟨hi, hf⟩ := h
    subst hf
    have hz : digitsToNat ((List.replicate (d - ([] : List ℕ).length) 0).take d) = 0 := by
      rw [List.take_replicate, digitsToNat_replicate_zero]
    rcases hi with hi | hi <;> subst hi <;>
      simpa [digitsToNat] using hz.symm
  · rw [digitsToNat_append, hlen]

/-- C1 fails in the code at `d = 0`: for the decimal string `"5"` (no
fractional digits, so within the claim's domain for every `d ∈ [0,9]`),
`fromSmallestUnits(toSmallestUnits("5", 0), 0)` evaluates to `0.5`, not
`parseFloat("5") = 5` — the `padded.slice(0, -0)` bug makes the integer part
empty for zero-decimal tokens. -/
theorem roundTrip_fails_at_decimals_zero :
    fromSmallestUnits (toSmallestUnits [5] [] 0) 0 = mkRat 1 2 ∧
    (mkRat 1 2 : ℚ) ≠ 5 ∧
    (∀ d : ℕ, 1 ≤ d → d ≤ 9 → fromSmallestUnits (toSmallestUnits [5] [] d) d = 5) := by
  refine ⟨by decide, by decide, ?_⟩
  intro d h1 h9
  interval_cases d <;> decide

/-- C2 fails in the code for a zero-decimal deposit token: with
`tokensDepositRemaining = 5` raw units, `decimals = 0`, partial fill allowed
and the default 100% fill (a full fill by the code's own tolerance test), the
submitted smallest-units amount is `toSmallestUnits(String(fromSmallestUnits(5, 0)), 0)
= toSmallestUnits("0.5", 0) = 0`, not the exact raw remaining `5`. -/
theorem fullFill_submits_display_derived_amount :
    exchangeDepositAmountRaw true 100 (mkRat 1 2) (mkRat 1 2) 5 0 1 = 0 ∧
    (0 : ℕ) ≠ 5 := by
  constructor <;> decide

/-- C10: whenever the connected wallet's public key equals the escrow's maker
address, `canExchange` is `false`, regardless of status, recipient settings
or anything else in the record. -/
theorem canExchange_false_for_maker : ∀ (e : EscrowRecord) (connected : Bool) (pk : String),
    pk = e.maker → canExchange (some e) connected (some pk) = false := by
  intro e connected pk h
  subst h
  cases connected <;> simp [canExchange]

/-- Witness for C10: a connected maker viewing their own active public
escrow still cannot fill it. -/
theorem canExchange_false_for_maker_witness :
    canExchange (some ⟨"maker1", EscrowStatus.active, none, false, true, 2, 3, 6⟩)
      true (some "maker1") = false :=
  canExchange_false_for_maker ⟨"maker1", EscrowStatus.active, none, false, true, 2, 3, 6⟩
    true "maker1" rfl

/-- C8: the exchange-cost estimate's total is the flat transaction fee plus
the per-account creation rent times the number of missing ATAs among the
taker's request-token and deposit-receive accounts; the contract fee is
carried in the result but never added to the total. -/
theorem exchangeCost_formula : ∀ (fees : FeeConstants) (t1 t2 : Bool),
    (calculateExchangeCosts fees t1 t2).totalCost
      = fees.TRANSACTION_FEE
        + fees.ATA_CREATION * (((if t1 then 0 else 1) : ℚ) + ((if t2 then 0 else 1) : ℚ)) ∧
    (calculateExchangeCosts fees t1 t2).contractFee = fees.CONTRACT_FEE := by
  intro fees t1 t2
  refine ⟨?_, rfl⟩
  cases t1 <;> cases t2 <;> simp [calculateExchangeCosts] <;> ring

/-- C6: for a zero-decimal request token, `"2.5"` is rejected while `"3"`
and `"3.0"` are accepted, and any accepted amount is a whole number whose
textual fractional digits are all `0`. -/
theorem zeroDecimals_whole_number_validation :
    isValidOfferAmount 0 ⟨[2], true, [5]⟩ = false ∧
    isValidOfferAmount 0 ⟨[3], false, []⟩ = true ∧
    isValidOfferAmount 0 ⟨[3], true, [0]⟩ = true ∧
    (∀ s : DecStr, (s.hasDot = false → s.fracDigits = []) →
      isValidOfferAmount 0 s = true →
      s.fracDigits.all (fun d => d = 0) = true ∧
        ∃ a : ℚ, parseFloatOf s = some a ∧ a.den = 1) := by
  refine ⟨by decide, by decide, by decide, ?_⟩
  intro s hwf hvalid
  unfold isValidOfferAmount at hvalid
  cases hp : parseFloatOf s with
  | none =>
    simp only [hp] at hvalid
    exact Bool.noConfusion hvalid
  | some a =>
    simp only [hp] at hvalid
    have hle : ¬a ≤ 0 := by
      intro h
      rw [if_pos h] at hvalid
      exact Bool.noConfusion hvalid
    rw [if_neg hle, if_pos trivial] at hvalid
    have hden : a.den = 1 := by
      by_contra h
      rw [if_pos h] at hvalid
      exact Bool.noConfusion hvalid
    rw [if_neg (by simpa using hden)] at hvalid
    have htext : ¬(s.hasDot = true ∧ s.fracDigits ≠ [] ∧
        s.fracDigits.any (fun d => d ≠ 0) = true) := by
      intro h
      rw [if_pos h] at hvalid
      exact Bool.noConfusion hvalid
    refine ⟨?_, a, rfl, hden⟩
    rw [List.all_eq_true]
    intro x hx
    simp only [decide_eq_true_eq]
    by_cases hd : s.hasDot
    · push_neg at htext
      have hfe : s.fracDigits ≠ [] := by
        intro hfe
        rw [hfe] at hx
        cases hx
      have hany := htext hd hfe
      have hall : ∀ y ∈ s.fracDigits, y = 0 := by simpa using hany
      exact hall x hx
    · have hfe : s.fracDigits = [] := hwf (by simpa using hd)
      rw [hfe] at hx
      cases hx

/-- Witness for C6 at a concrete input: `"7.00"` is accepted for a
zero-decimal token, and indeed all its textual fractional digits are `0` and
its parsed value is a whole number. -/
theorem zeroDecimals_whole_number_validation_witness :
    (DecStr.fracDigits ⟨[7], true, [0, 0]⟩).all (fun d => d = 0) = true ∧
      ∃ a : ℚ, parseFloatOf ⟨[7], true, [0, 0]⟩ = some a ∧ a.den = 1 :=
  zeroDecimals_whole_number_validation.2.2.2 ⟨[7], true, [0, 0]⟩ (by decide) (by decide)

/-- C7: for both estimators, `total = recoverable + nonRecoverable`, and the
recoverable part is exactly the sum of the rent-bearing items (escrow rent
and token-account creation costs; for the exchange estimator there is no
escrow rent item). -/
theorem costBreakdown_additive : ∀ (fees : FeeConstants) (e1 e2 t1 t2 : Bool),
    (calculateEscrowCreationCosts fees e1 e2).totalCost
      = (calculateEscrowCreationCosts fees e1 e2).recoverable
        + (calculateEscrowCreationCosts fees e1 e2).nonRecoverable ∧
    (calculateExchangeCosts fees t1 t2).totalCost
      = (calculateExchangeCosts fees t1 t2).recoverable
        + (calculateExchangeCosts fees t1 t2).nonRecoverable ∧
    (calculateEscrowCreationCosts fees e1 e2).recoverable
      = (calculateEscrowCreationCosts fees e1 e2).escrowRent
        + (calculateEscrowCreationCosts fees e1 e2).depositAtaCost
        + (calculateEscrowCreationCosts fees e1 e2).requestAtaCost ∧
    (calculateExchangeCosts fees t1 t2).recoverable
      = (calculateExchangeCosts fees t1 t2).takerAtaCost
        + (calculateExchangeCosts fees t1 t2).takerReceiveAtaCost ∧
    (0 ≤ fees.ATA_CREATION →
      sumRecoverableItems (formatCostBreakdown (calculateEscrowCreationCosts fees e1 e2)).items
        = (calculateEscrowCreationCosts fees e1 e2).recoverable) := by
  intro fees e1 e2 t1 t2
  refine ⟨by simp [calculateEscrowCreationCosts]; ring,
    by simp [calculateExchangeCosts]; ring, rfl, rfl, ?_⟩
  intro hA
  have hd : (0 : ℚ) ≤ (if e1 then 0 else fees.ATA_CREATION) := by
    split_ifs <;> simp [hA]
  have hr : (0 : ℚ) ≤ (if e2 then 0 else fees.ATA_CREATION) := by
    split_ifs <;> simp [hA]
  clear hd hr
  cases e1 <;> cases e2 <;>
    simp [calculateEscrowCreationCosts, formatCostBreakdown, sumRecoverableItems,
      List.filter_cons, List.filter_nil, List.foldl_cons, List.foldl_nil] <;>
    split_ifs with h <;>
    simp [List.filter_cons, List.filter_nil, List.foldl_cons, List.foldl_nil] <;>
    linarith [hA]

/-- Witness for C7 at concrete constants (rent 1, contract fee 2, platform
fee 3, ATA creation 4, transaction fee 5) with one missing maker ATA. -/
theorem costBreakdown_additive_witness :
    sumRecoverableItems
        (formatCostBreakdown (calculateEscrowCreationCosts ⟨1, 2, 3, 4, 5⟩ false true)).items
      = (calculateEscrowCreationCosts ⟨1, 2, 3, 4, 5⟩ false true).recoverable :=
  (costBreakdown_additive ⟨1, 2, 3, 4, 5⟩ false true false true).2.2.2.2 (by decide)

lemma toFixed_zero_snd (q : ℚ) : (toFixed q 0).2 = [] := rfl

/-- C9: the source `formatDecimals` agrees everywhere with the formatter as
the specification words it — `0` formats as `"0"`, the fractional-digit
count comes from the magnitude bands of the absolute value, an all-zero
fractional part is reformatted at exactly 1 digit, and the sign is applied
to the formatted absolute value. -/
theorem formatDecimals_matches_spec : ∀ q : ℚ, formatDecimals q = formatDecimalsSpec q := by
  intro q
  unfold formatDecimals formatDecimalsSpec bandDigits
  by_cases h0 : q = 0
  · simp [h0]
  rw [if_neg h0, if_neg h0]
  by_cases h1 : jsAbs q < 1
  · simp [h1]
  by_cases h2 : jsAbs q < 10
  · simp [h1, h2]
  by_cases h3 : jsAbs q < 100
  · simp [h1, h2, h3]
  by_cases h4 : jsAbs q < 1000
  · simp [h1, h2, h3, h4]
  · simp [h1, h2, h3, h4, toFixed_zero_snd]

/-- Witness for C1's positive part at a concrete input: with `d = 3` the
round trip on `"5"` is exact. -/
theorem roundTrip_fails_at_decimals_zero_witness :
    fromSmallestUnits (toSmallestUnits [5] [] 3) 3 = 5 :=
  roundTrip_fails_at_decimals_zero.2.2 3 (by decide) (by decide)
